import Mathlib

/-!
# Verification of the AskMyPDF app (`src/app.py`)

Shallow embedding of the Streamlit script `app.py`: the upload/validation/
index-build pipeline (lines 60–86) and the chat-turn handler (lines 123–150),
together with the answer parser `extract_answer_without_sources`
(lines 117–121).

Python strings are embedded as `List Char` (a Python `str` is a sequence of
code points); the builtins `str.replace`, `str.split(sep)[0]` and
`str.strip()` are given as executable functions with Python's semantics.
Code of this repository that is not under `src/` (the `core.*` and `ui`
modules) is modelled from the spec where a claim depends on it; each such
definition carries a doc comment starting `Modelled from the spec:`.
-/

namespace AskMyPDF

/-! ## Python string primitives over `List Char` -/

/-- The ASCII whitespace characters removed by Python's `str.strip()`. -/
def isPySpace (c : Char) : Bool :=
  c = ' ' || c = '\t' || c = '\n' || c = '\r' || c = '\x0b' || c = '\x0c'

/-- `begWith pat s` is true when `s` begins with the pattern `pat`
    (Python `s.startswith(pat)`). -/
def begWith : List Char → List Char → Bool
  | [], _ => true
  | _ :: _, [] => false
  | p :: ps, c :: cs => p = c && begWith ps cs

/-- `hasSubstr pat s` is true when `pat` occurs as a contiguous substring
    of `s` (Python `pat in s`). -/
def hasSubstr (pat : List Char) : List Char → Bool
  | [] => pat.isEmpty
  | c :: rest => begWith pat (c :: rest) || hasSubstr pat rest

/-- Everything before the first occurrence of `pat` in `s`; all of `s` when
    `pat` does not occur (Python `s.split(pat)[0]` for nonempty `pat`). -/
def beforeFirst (pat : List Char) : List Char → List Char
  | [] => []
  | c :: rest =>
    if begWith pat (c :: rest) then []
    else c :: beforeFirst pat rest

/-- Fuelled worker for `pyReplace`: scans left to right, replacing each
    non-overlapping occurrence of `old` by `new`.  One unit of fuel is spent
    per step, and each step consumes at least one character of the input, so
    fuel `s.length` always suffices. -/
def pyReplaceF (old new : List Char) : Nat → List Char → List Char
  | _, [] => []
  | 0, s => s
  | fuel + 1, c :: rest =>
    if !old.isEmpty && begWith old (c :: rest) then
      new ++ pyReplaceF old new fuel (List.drop old.length (c :: rest))
    else
      c :: pyReplaceF old new fuel rest

/-- Python `s.replace(old, new)` for nonempty `old`: replace every
    non-overlapping occurrence, scanning left to right. -/
def pyReplace (old new s : List Char) : List Char :=
  pyReplaceF old new s.length s

/-- Remove leading Python whitespace (Python `s.lstrip()`). -/
def lstripCh (s : List Char) : List Char := s.dropWhile isPySpace

/-- Remove trailing Python whitespace (Python `s.rstrip()`). -/
def rstripCh (s : List Char) : List Char := (s.reverse.dropWhile isPySpace).reverse

/-- Python `s.strip()`: remove whitespace at both ends. -/
def pyStrip (s : List Char) : List Char := rstripCh (lstripCh s)

/-! ### String-level wrappers -/

/-- Python `s.replace(old, new)` on `String`. -/
def pyReplaceS (s old new : String) : String :=
  String.mk (pyReplace old.toList new.toList s.toList)

/-- Python `s.split(sep)[0]` on `String`. -/
def pySplitHeadS (s sep : String) : String :=
  String.mk (beforeFirst sep.toList s.toList)

/-- Python `s.strip()` on `String`. -/
def pyStripS (s : String) : String := String.mk (pyStrip s.toList)

/-! ## `app.py` definitions

The answer parser (`app.py` lines 117–121):
```python
def extract_answer_without_sources(result_answer: str) -> str:
    normalized_answer = result_answer.replace("\nSOURCES:", " SOURCES:")
    normalized_answer = normalized_answer.replace("SOURCES:\n", "SOURCES: ")
    answer = normalized_answer.split("SOURCES:")[0].strip()
    return answer
```
-/

/-- `extract_answer_without_sources` from `app.py` lines 117–121. -/
def extract_answer_without_sources (result_answer : String) : String :=
  let normalized_answer := pyReplaceS result_answer "\nSOURCES:" " SOURCES:"
  let normalized_answer := pyReplaceS normalized_answer "SOURCES:\n" "SOURCES: "
  pyStripS (pySplitHeadS normalized_answer "SOURCES:")

/-- Modelled from the spec: the response parsing of `core.qa.query_folder`
    (`core/qa.py` is not under `src/`).  Per §4.4 step 5, the answer body of
    a `QueryResult` is everything before a literal `SOURCES:` marker of the
    raw model response (both marker forms normalized identically before
    splitting), trimmed of whitespace; text after the marker is discarded,
    and with no marker the full trimmed response is returned. -/
def specParseAnswer (raw : String) : String :=
  pyStripS (pySplitHeadS raw "SOURCES:")

/-! ### The chat-turn handler (`app.py` lines 123–150)

```python
if query := st.chat_input("Ask a question about the document"):
    st.session_state['messages'].append({"role": "user", "content": query})
    ...
    result = query_folder(...)          # may raise GenerationError
    pages = sorted(set(int(source.metadata["page"]) for source in result.sources))
    sources = ", ".join(map(str, pages))
    if sources:
        answer = f"""..."""
    else:
        answer = extract_answer_without_sources(result.answer)
    st.session_state['messages'].append({"role": "assistant", "content": answer})
```

`st.session_state['messages']` is the conversation history; appends to it
persist even when the script run later dies on an uncaught exception, while
an exception raised before an `append` prevents that `append`.  The handler
is embedded as a function from the history, the question, and the outcome of
`query_folder` (a provider error or a `QueryResult`) to the final history.
A source chunk's `int(source.metadata["page"])` is embedded as
`Option Int`: `none` models a missing `"page"` key or a value `int()`
rejects, either of which raises an uncaught exception at line 137. -/

/-- One entry of `st.session_state['messages']`. -/
structure ChatMessage where
  role : String
  content : String
deriving DecidableEq, Repr

/-- A retrieved source chunk, as consumed by the handler: only the page
    metadata matters to it.  `page = some n` models
    `int(source.metadata["page"]) == n`; `page = none` models a missing or
    non-coercible `"page"` entry. -/
structure SourceChunk where
  page : Option Int
deriving DecidableEq, Repr

/-- The result of `query_folder`: an answer string plus source chunks. -/
structure QueryResult where
  answer : String
  sources : List SourceChunk
deriving DecidableEq, Repr

/-- A provider error raised while answering (spec §7). -/
structure GenerationError where
  message : String
deriving DecidableEq, Repr

/-- The generator `(int(source.metadata["page"]) for source in result.sources)`
    run to completion inside `set(...)`: all pages, or `none` when any
    chunk's page metadata is missing/non-coercible (uncaught exception). -/
def collectPages : List SourceChunk → Option (List Int)
  | [] => some []
  | s :: rest =>
    match s.page, collectPages rest with
    | some n, some ns => some (n :: ns)
    | _, _ => none

/-- Python `sorted(set(xs))`: the ascending list of distinct elements. -/
def sortedSet (xs : List Int) : List Int :=
  List.insertionSort (· ≤ ·) xs.dedup

/-- Python `", ".join(map(str, pages))` (`app.py` line 138). -/
def renderPages (pages : List Int) : String :=
  String.intercalate ", " (pages.map toString)

/-- The f-string assembled at `app.py` lines 140–144 when `sources` is
    non-empty, with its exact literal whitespace. -/
def answerWithCitations (resultAnswer sources : String) : String :=
  "\n        " ++ resultAnswer ++
    "\n        \n        <span style=\"color:grey; font-size: small; font-style: italic;\">The information was found on the following pages: " ++
    sources ++ ".</span>\n        "

/-- The chat-turn handler (`app.py` lines 123–150): append the user's
    question, then — unless `query_folder` raised or the page metadata of a
    source chunk is missing/non-coercible — append the assistant answer. -/
def runChatTurn (messages : List ChatMessage) (query : String)
    (outcome : Except GenerationError QueryResult) : List ChatMessage :=
  let messages := messages ++ [{ role := "user", content := query }]
  match outcome with
  | .error _ => messages
  | .ok result =>
    match collectPages result.sources with
    | none => messages
    | some pageInts =>
      let pages := sortedSet pageInts
      let sources := renderPages pages
      let answer :=
        if sources ≠ "" then answerWithCitations result.answer sources
        else extract_answer_without_sources result.answer
      messages ++ [{ role := "assistant", content := answer }]

/-! ### The upload/index-build pipeline (`app.py` lines 60–86)

```python
if not uploaded_files:
    st.info("Upload a file to get started.")
    st.stop()

files = []
for uploaded_file in uploaded_files:
    try:
        file = read_file(uploaded_file)
        files.append(file)
    except Exception as e:
        display_file_read_error(e, file_name=uploaded_file.name)

chunked_files = [chunk_file(file, chunk_size=300, chunk_overlap=0) for file in files]

if not is_file_valid(file):
    st.stop()

if not is_open_ai_key_valid(openai_api_key, model):
    st.stop()

folder_index = embed_files(
        files=chunked_files,
        embedding=EMBEDDING if model != "debug" else "debug",
        vector_store=VECTOR_STORE if model != "debug" else "debug",
        openai_api_key=openai_api_key,
    )
```

Note that at line 74 the name `file` is the `for`-loop variable, i.e. the
last file read; `chunk_file` and `embed_files` live in `core.*` modules not
under `src/`, so the model records the chunker invocations (file and the
literal `chunk_size=300, chunk_overlap=0` arguments of line 72) and the
embedding/vector-store kind strings passed to `embed_files`. -/

/-- A successfully read file, reduced to what the modelled pipeline
    inspects: its name and the total length of its extracted text. -/
structure PFile where
  name : String
  totalTextLength : Nat
deriving DecidableEq, Repr

/-- A `ReadError` (spec §7) raised by `read_file`. -/
structure ReadError where
  reason : String
deriving DecidableEq, Repr

/-- One uploaded file together with the outcome of `read_file` on it. -/
structure UploadRead where
  name : String
  result : Except ReadError PFile

/-- `app.py` line 17. -/
def EMBEDDING : String := "openai"

/-- `app.py` line 18. -/
def VECTOR_STORE : String := "faiss"

/-- `app.py` line 19: the options of the model selectbox (line 54). -/
def MODEL_LIST : List String := ["gpt-4o", "gpt-4-turbo", "gpt-4", "gpt-3.5-turbo"]

/-- Modelled from the spec: `ui.is_file_valid` (`ui.py` is not under
    `src/`).  Per §4.1 it rejects documents whose total extracted text
    length is zero (the "scanned document" case). -/
def is_file_valid (file : PFile) : Bool :=
  file.totalTextLength ≠ 0

/-- The `embedding=EMBEDDING if model != "debug" else "debug"` argument of
    `embed_files` (`app.py` line 83). -/
def embeddingKind (model : String) : String :=
  if model ≠ "debug" then EMBEDDING else "debug"

/-- The `vector_store=VECTOR_STORE if model != "debug" else "debug"`
    argument of `embed_files` (`app.py` line 84). -/
def vectorStoreKind (model : String) : String :=
  if model ≠ "debug" then VECTOR_STORE else "debug"

/-- The read loop of `app.py` lines 64–70.  On the first `read_file`
    failure, `display_file_read_error(e, file_name=uploaded_file.name)`
    runs — modelled from the spec (§7: the error is surfaced with the
    offending file name and the operation aborts; `ui.py` is not under
    `src/`) — so the loop stops and the error carries that file's name.
    Otherwise every file is read, in order. -/
def processUploads : List UploadRead → Except String (List PFile)
  | [] => .ok []
  | u :: rest =>
    match u.result with
    | .error _ => .error u.name
    | .ok f =>
      match processUploads rest with
      | .error name => .error name
      | .ok files => .ok (f :: files)

/-- Observable outcome of the script section from line 60 to line 86. -/
inductive PipelineResult where
  /-- `st.stop()` at line 62: nothing uploaded. -/
  | stoppedNoUpload : PipelineResult
  /-- A `read_file` failure surfaced with the offending file's name. -/
  | readError (fileName : String) : PipelineResult
  /-- `st.stop()` at line 75: the validated file was rejected. -/
  | invalidFileStop : PipelineResult
  /-- `st.stop()` at line 78: the API key/model combination was rejected. -/
  | invalidKeyStop : PipelineResult
  /-- `embed_files` is reached: an index is built.  Records the chunker
      invocations of line 72 (file, `chunk_size`, `chunk_overlap`) and the
      embedding/vector-store kinds of lines 83–84. -/
  | indexed (chunkCalls : List (PFile × Nat × Nat))
      (embedding vectorStore : String) : PipelineResult
deriving DecidableEq, Repr

/-- The upload/validation/index-build pipeline, `app.py` lines 60–86. -/
def uploadPipeline (uploads : List UploadRead) (keyValid : Bool)
    (model : String) : PipelineResult :=
  if uploads.isEmpty then .stoppedNoUpload
  else
    match processUploads uploads with
    | .error name => .readError name
    | .ok files =>
      let chunkCalls := files.map (fun file => (file, 300, 0))
      match files.getLast? with
      | none => .invalidFileStop
      | some file =>
        if !is_file_valid file then .invalidFileStop
        else if !keyValid then .invalidKeyStop
        else .indexed chunkCalls (embeddingKind model) (vectorStoreKind model)

/-! ## Lemmas about the Python string primitives -/

theorem hasSubstr_nil_pat (s : List Char) : hasSubstr ([] : List Char) s = true := by
  cases s <;> simp [hasSubstr, begWith]

theorem begWith_append {pat t : List Char} (u : List Char)
    (h : begWith pat t = true) : begWith pat (t ++ u) = true := by
  induction pat generalizing t with
  | nil => simp [begWith]
  | cons p ps ih =>
    cases t with
    | nil => simp [begWith] at h
    | cons c cs =>
      simp only [begWith, Bool.and_eq_true, decide_eq_true_eq] at h
      simp only [List.cons_append, begWith, Bool.and_eq_true, decide_eq_true_eq]
      exact ⟨h.1, ih h.2⟩

theorem begWith_hasSubstr {pat s : List Char} (h : begWith pat s = true) :
    hasSubstr pat s = true := by
  cases s with
  | nil =>
    cases pat with
    | nil => simp [hasSubstr]
    | cons p ps => simp [begWith] at h
  | cons c cs => simp [hasSubstr, h]

theorem hasSubstr_append_left {pat t : List Char} (u : List Char)
    (h : hasSubstr pat t = true) : hasSubstr pat (t ++ u) = true := by
  induction t with
  | nil =>
    simp only [hasSubstr, List.isEmpty_iff] at h
    subst h
    simpa using hasSubstr_nil_pat u
  | cons c cs ih =>
    simp only [hasSubstr, Bool.or_eq_true] at h
    rcases h with h | h
    · simp only [List.cons_append, hasSubstr, Bool.or_eq_true]
      exact Or.inl (by simpa using begWith_append u h)
    · simp only [List.cons_append, hasSubstr, Bool.or_eq_true]
      exact Or.inr (ih h)

theorem hasSubstr_append_right {pat u : List Char} (t : List Char)
    (h : hasSubstr pat u = true) : hasSubstr pat (t ++ u) = true := by
  induction t with
  | nil => simpa using h
  | cons c cs ih =>
    simp only [List.cons_append, hasSubstr, Bool.or_eq_true]
    exact Or.inr ih

theorem begWith_of_pat_append {pat v s : List Char}
    (h : begWith (pat ++ v) s = true) : begWith pat s = true := by
  induction pat generalizing s with
  | nil => simp [begWith]
  | cons p ps ih =>
    cases s with
    | nil => simp [begWith] at h
    | cons c cs =>
      simp only [List.cons_append, begWith, Bool.and_eq_true, decide_eq_true_eq] at h
      simp only [begWith, Bool.and_eq_true, decide_eq_true_eq]
      exact ⟨h.1, ih h.2⟩

/-- An occurrence of `pat ++ v` contains an occurrence of `pat`. -/
theorem hasSubstr_of_pat_append {pat v s : List Char}
    (h : hasSubstr (pat ++ v) s = true) : hasSubstr pat s = true := by
  induction s with
  | nil =>
    simp only [hasSubstr, List.isEmpty_iff, List.append_eq_nil] at h
    simp [hasSubstr, h.1]
  | cons c cs ih =>
    simp only [hasSubstr, Bool.or_eq_true] at h ⊢
    rcases h with h | h
    · exact Or.inl (begWith_of_pat_append h)
    · exact Or.inr (ih h)

theorem begWith_append_pat_hasSubstr {u pat s : List Char}
    (h : begWith (u ++ pat) s = true) : hasSubstr pat s = true := by
  induction u generalizing s with
  | nil => exact begWith_hasSubstr (by simpa using h)
  | cons a as ih =>
    cases s with
    | nil => simp [begWith] at h
    | cons c cs =>
      simp only [List.cons_append, begWith, Bool.and_eq_true, decide_eq_true_eq] at h
      simp only [hasSubstr, Bool.or_eq_true]
      exact Or.inr (ih h.2)

/-- An occurrence of `u ++ pat` contains an occurrence of `pat`. -/
theorem hasSubstr_of_append_pat {u pat s : List Char}
    (h : hasSubstr (u ++ pat) s = true) : hasSubstr pat s = true := by
  induction s with
  | nil =>
    simp only [hasSubstr, List.isEmpty_iff, List.append_eq_nil] at h
    simp [hasSubstr, h.2]
  | cons c cs ih =>
    simp only [hasSubstr, Bool.or_eq_true] at h ⊢
    rcases h with h | h
    · have := begWith_append_pat_hasSubstr h
      simp only [hasSubstr, Bool.or_eq_true] at this
      exact this
    · exact Or.inr (ih h)

theorem hasSubstr_false_left {pat t u : List Char}
    (h : hasSubstr pat (t ++ u) = false) : hasSubstr pat t = false := by
  by_contra hb
  rw [Bool.not_eq_false] at hb
  rw [hasSubstr_append_left u hb] at h
  simp at h

theorem hasSubstr_false_right {pat t u : List Char}
    (h : hasSubstr pat (t ++ u) = false) : hasSubstr pat u = false := by
  by_contra hb
  rw [Bool.not_eq_false] at hb
  rw [hasSubstr_append_right t hb] at h
  simp at h

theorem beforeFirst_append_eq (pat s : List Char) :
    ∃ u, beforeFirst pat s ++ u = s := by
  induction s with
  | nil => exact ⟨[], rfl⟩
  | cons c rest ih =>
    by_cases h : begWith pat (c :: rest) = true
    · exact ⟨c :: rest, by simp [beforeFirst, h]⟩
    · obtain ⟨u, hu⟩ := ih
      exact ⟨u, by simp [beforeFirst, h, hu]⟩

theorem beforeFirst_of_not_hasSubstr {pat s : List Char}
    (h : hasSubstr pat s = false) : beforeFirst pat s = s := by
  induction s with
  | nil => rfl
  | cons c rest ih =>
    simp only [hasSubstr, Bool.or_eq_false_iff] at h
    simp [beforeFirst, h.1, ih h.2]

/-- Nothing before the first occurrence of a nonempty `pat` contains `pat`. -/
theorem hasSubstr_beforeFirst {pat : List Char} (hp : pat.isEmpty = false)
    (s : List Char) : hasSubstr pat (beforeFirst pat s) = false := by
  induction s with
  | nil => simpa [hasSubstr, beforeFirst] using hp
  | cons c rest ih =>
    by_cases h : begWith pat (c :: rest) = true
    · simpa [beforeFirst, h, hasSubstr] using hp
    · have hbf : beforeFirst pat (c :: rest) = c :: beforeFirst pat rest := by
        simp [beforeFirst, h]
      rw [hbf]
      have h2 : begWith pat (c :: beforeFirst pat rest) = false := by
        by_contra hb
        rw [Bool.not_eq_false] at hb
        obtain ⟨u, hu⟩ := beforeFirst_append_eq pat rest
        have hx := begWith_append u hb
        rw [List.cons_append, hu] at hx
        exact h hx
      simp [hasSubstr, h2, ih]

theorem pyReplaceF_of_not_hasSubstr (old new : List Char) :
    ∀ (n : Nat) (s : List Char), hasSubstr old s = false → pyReplaceF old new n s = s := by
  intro n
  induction n with
  | zero => intro s _; cases s <;> rfl
  | succ m ih =>
    intro s h
    cases s with
    | nil => rfl
    | cons c rest =>
      simp only [hasSubstr, Bool.or_eq_false_iff] at h
      simp [pyReplaceF, h.1, ih rest h.2]

theorem pyReplace_of_not_hasSubstr {old s : List Char} (new : List Char)
    (h : hasSubstr old s = false) : pyReplace old new s = s :=
  pyReplaceF_of_not_hasSubstr old new s.length s h

theorem dropWhile_dropWhile (p : Char → Bool) (l : List Char) :
    (l.dropWhile p).dropWhile p = l.dropWhile p := by
  induction l with
  | nil => rfl
  | cons c rest ih =>
    by_cases h : p c = true
    · simp [List.dropWhile_cons, h, ih]
    · simp [List.dropWhile_cons, h]

theorem dropWhile_eq_self_left {p : Char → Bool} {t u : List Char}
    (h : (t ++ u).dropWhile p = t ++ u) : t.dropWhile p = t := by
  cases t with
  | nil => rfl
  | cons c rest =>
    rw [List.cons_append, List.dropWhile_cons] at h
    by_cases hc : p c = true
    · exfalso
      rw [if_pos hc] at h
      have hlen := congrArg List.length h
      have hle := (List.dropWhile_sublist (l := rest ++ u) p).length_le
      simp only [List.length_cons, List.length_append] at hlen hle
      omega
    · simp [List.dropWhile_cons, hc]

theorem rstripCh_append_eq (m : List Char) : ∃ u, rstripCh m ++ u = m := by
  refine ⟨(m.reverse.takeWhile isPySpace).reverse, ?_⟩
  rw [rstripCh, ← List.reverse_append, List.takeWhile_append_dropWhile, List.reverse_reverse]

theorem lstripCh_lstripCh (s : List Char) : lstripCh (lstripCh s) = lstripCh s :=
  dropWhile_dropWhile _ s

theorem rstripCh_rstripCh (s : List Char) : rstripCh (rstripCh s) = rstripCh s := by
  simp [rstripCh, List.reverse_reverse, dropWhile_dropWhile]

theorem lstripCh_rstripCh_of_lstripped {m : List Char} (hm : lstripCh m = m) :
    lstripCh (rstripCh m) = rstripCh m := by
  obtain ⟨u, hu⟩ := rstripCh_append_eq m
  exact dropWhile_eq_self_left (u := u) (by rw [hu]; exact hm)

theorem pyStrip_pyStrip (s : List Char) : pyStrip (pyStrip s) = pyStrip s := by
  unfold pyStrip
  rw [lstripCh_rstripCh_of_lstripped (lstripCh_lstripCh s), rstripCh_rstripCh]

/-- Stripping whitespace cannot create an occurrence of `pat`. -/
theorem hasSubstr_pyStrip {pat s : List Char} (h : hasSubstr pat s = false) :
    hasSubstr pat (pyStrip s) = false := by
  have h1 : hasSubstr pat (lstripCh s) = false := by
    have hs : s.takeWhile isPySpace ++ s.dropWhile isPySpace = s :=
      List.takeWhile_append_dropWhile (p := isPySpace) (l := s)
    rw [← hs] at h
    exact hasSubstr_false_right h
  obtain ⟨u, hu⟩ := rstripCh_append_eq (lstripCh s)
  refine hasSubstr_false_left (u := u) ?_
  unfold pyStrip
  rw [hu]
  exact h1

/-! ## The answer parser at character level -/

/-- `extract_answer_without_sources`, character by character. -/
def extractChars (s : List Char) : List Char :=
  pyStrip (beforeFirst "SOURCES:".toList
    (pyReplace "SOURCES:\n".toList "SOURCES: ".toList
      (pyReplace "\nSOURCES:".toList " SOURCES:".toList s)))

theorem extract_toList (s : String) :
    (extract_answer_without_sources s).toList = extractChars s.toList := rfl

/-- The parsed answer never contains the `SOURCES:` marker. -/
theorem hasSubstr_extractChars (s : List Char) :
    hasSubstr "SOURCES:".toList (extractChars s) = false :=
  hasSubstr_pyStrip (hasSubstr_beforeFirst (by decide) _)

/-- On marker-free input both normalizations and the split are the
    identity, so the parser only strips whitespace. -/
theorem extractChars_of_not_hasSubstr {s : List Char}
    (h : hasSubstr "SOURCES:".toList s = false) : extractChars s = pyStrip s := by
  have h1 : hasSubstr "\nSOURCES:".toList s = false := by
    by_contra hb
    rw [Bool.not_eq_false] at hb
    have he : "\nSOURCES:".toList = ['\n'] ++ "SOURCES:".toList := by decide
    rw [hasSubstr_of_append_pat (he ▸ hb)] at h
    simp at h
  have h2 : hasSubstr "SOURCES:\n".toList s = false := by
    by_contra hb
    rw [Bool.not_eq_false] at hb
    have he : "SOURCES:\n".toList = "SOURCES:".toList ++ ['\n'] := by decide
    rw [hasSubstr_of_pat_append (he ▸ hb)] at h
    simp at h
  unfold extractChars
  rw [pyReplace_of_not_hasSubstr _ h1, pyReplace_of_not_hasSubstr _ h2,
    beforeFirst_of_not_hasSubstr h]

/-- The parser is idempotent at the character level. -/
theorem extractChars_extractChars (s : List Char) :
    extractChars (extractChars s) = extractChars s := by
  rw [extractChars_of_not_hasSubstr (hasSubstr_extractChars s)]
  unfold extractChars
  exact pyStrip_pyStrip _

/-! ## Lemmas about the chat-turn handler and the pipeline -/

theorem collectPages_eq_none_iff (srcs : List SourceChunk) :
    collectPages srcs = none ↔ ∃ s ∈ srcs, s.page = none := by
  induction srcs with
  | nil => simp [collectPages]
  | cons s rest ih =>
    constructor
    · intro h
      cases hp : s.page with
      | none => exact ⟨s, List.mem_cons_self s rest, hp⟩
      | some n =>
        cases hc : collectPages rest with
        | none =>
          obtain ⟨t, ht, hpt⟩ := ih.mp hc
          exact ⟨t, List.mem_cons_of_mem s ht, hpt⟩
        | some ns =>
          rw [collectPages, hp, hc] at h
          simp at h
    · rintro ⟨t, ht, hpt⟩
      rcases List.mem_cons.mp ht with rfl | ht
      · simp [collectPages, hpt]
      · have hr : collectPages rest = none := ih.mpr ⟨t, ht, hpt⟩
        rw [collectPages, hr]
        cases s.page <;> rfl

theorem collectPages_isSome_iff (srcs : List SourceChunk) :
    (collectPages srcs).isSome = true ↔ ∀ s ∈ srcs, s.page.isSome = true := by
  rw [Option.isSome_iff_ne_none, Ne, collectPages_eq_none_iff]
  push_neg
  exact ⟨fun h s hs => Option.isSome_iff_ne_none.mpr (h s hs),
    fun h s hs => Option.isSome_iff_ne_none.mp (h s hs)⟩

/-- The read loop surfaces the first failing file: its name is reported and
    no file list is produced. -/
theorem processUploads_error_of_exists {uploads : List UploadRead}
    (h : ∃ u ∈ uploads, ∃ e, u.result = Except.error e) :
    ∃ v ∈ uploads, (∃ e, v.result = Except.error e)
      ∧ processUploads uploads = Except.error v.name := by
  induction uploads with
  | nil => simp at h
  | cons u rest ih =>
    cases hu : u.result with
    | error e =>
      exact ⟨u, List.mem_cons_self u rest, ⟨e, hu⟩, by simp [processUploads, hu]⟩
    | ok f =>
      have h2 : ∃ v ∈ rest, ∃ e, v.result = Except.error e := by
        obtain ⟨v, hv, e, he⟩ := h
        rcases List.mem_cons.mp hv with rfl | hv
        · rw [hu] at he
          simp at he
        · exact ⟨v, hv, e, he⟩
      obtain ⟨v, hv, hee, hp⟩ := ih h2
      exact ⟨v, List.mem_cons_of_mem u hv, hee, by simp [processUploads, hu, hp]⟩

/-! ## The claims -/

/-- Claim C1: for every query result, the assistant answer that is committed
    to conversation history (and displayed) contains no text after a literal
    `SOURCES:` marker of the model response.  With the response parsing of
    `query_folder` modelled from the spec (`specParseAnswer`), the whole
    committed turn depends only on the text before the first marker — i.e.
    everything after the marker is discarded — in both the non-empty and the
    empty citation-set branch (`srcs` is arbitrary), and the parsed answer
    itself never contains the marker. -/
theorem committed_answer_independent_of_text_after_marker
    (msgs : List ChatMessage) (q : String) (srcs : List SourceChunk)
    (raw₁ raw₂ : String)
    (h : beforeFirst "SOURCES:".toList raw₁.toList
        = beforeFirst "SOURCES:".toList raw₂.toList) :
    runChatTurn msgs q (.ok ⟨specParseAnswer raw₁, srcs⟩)
      = runChatTurn msgs q (.ok ⟨specParseAnswer raw₂, srcs⟩)
    ∧ hasSubstr "SOURCES:".toList (specParseAnswer raw₁).toList = false := by
  have hsp : specParseAnswer raw₁ = specParseAnswer raw₂ := by
    show String.mk (pyStrip (beforeFirst "SOURCES:".toList raw₁.toList))
      = String.mk (pyStrip (beforeFirst "SOURCES:".toList raw₂.toList))
    rw [h]
  refine ⟨by rw [hsp], ?_⟩
  show hasSubstr "SOURCES:".toList
    (pyStrip (beforeFirst "SOURCES:".toList raw₁.toList)) = false
  exact hasSubstr_pyStrip (hasSubstr_beforeFirst (by decide) _)

/-- Witness for C1 at a concrete input: two responses agreeing before the
    marker but differing after it produce identical committed histories. -/
theorem committed_answer_independent_of_text_after_marker_witness :
    runChatTurn [] "q"
        (.ok ⟨specParseAnswer "The cat sat.\nSOURCES:\ndoc.pdf page 1", [⟨some 1⟩]⟩)
      = runChatTurn [] "q"
        (.ok ⟨specParseAnswer "The cat sat.\nSOURCES: a totally different tail", [⟨some 1⟩]⟩)
    ∧ hasSubstr "SOURCES:".toList
        (specParseAnswer "The cat sat.\nSOURCES:\ndoc.pdf page 1").toList = false :=
  committed_answer_independent_of_text_after_marker [] "q" [⟨some 1⟩]
    "The cat sat.\nSOURCES:\ndoc.pdf page 1"
    "The cat sat.\nSOURCES: a totally different tail" (by decide)

/-- Claim C2 (counterexample): a `GenerationError` outcome does NOT leave
    the conversation history unmodified — the user's question was already
    appended (`app.py` line 124) before `query_folder` runs (line 130). -/
theorem generation_error_still_commits_user_question :
    runChatTurn [] "What is this document about?"
      (.error ⟨"provider error"⟩) ≠ [] := by
  decide

/-- Claim C2 (amended): on a `GenerationError` no assistant message (in
    particular no partial answer) is committed, but the history does gain
    exactly the user's question, which is appended before the query runs. -/
theorem generation_error_appends_exactly_user_question
    (msgs : List ChatMessage) (q : String) (e : GenerationError) :
    runChatTurn msgs q (.error e) = msgs ++ [{ role := "user", content := q }] :=
  rfl

/-- Claim C3 (counterexample): a document with zero extracted text is NOT
    rejected before the index is built when it is not the last file —
    `app.py` line 74 validates only the loop variable `file`, i.e. the last
    file read.  Here `empty.pdf` (total text length 0, `is_file_valid`
    false) still reaches `embed_files`. -/
theorem zero_text_file_reaches_index_build :
    is_file_valid ⟨"empty.pdf", 0⟩ = false
    ∧ uploadPipeline
        [⟨"empty.pdf", .ok ⟨"empty.pdf", 0⟩⟩, ⟨"ok.pdf", .ok ⟨"ok.pdf", 120⟩⟩]
        true "gpt-4o"
      = .indexed [(⟨"empty.pdf", 0⟩, 300, 0), (⟨"ok.pdf", 120⟩, 300, 0)]
          "openai" "faiss" := by
  decide

/-- Claim C3 (amended): validation is applied only to the last file read in
    the loop — the pipeline stops at line 75 exactly when the LAST file is
    invalid, and otherwise builds the index from all files regardless of the
    validity of earlier ones. -/
theorem validation_checks_only_last_file
    (uploads : List UploadRead) (key : Bool) (model : String)
    (files : List PFile) (lastFile : PFile)
    (hp : processUploads uploads = .ok files)
    (hl : files.getLast? = some lastFile)
    (hne : uploads.isEmpty = false) :
    (is_file_valid lastFile = false →
        uploadPipeline uploads key model = .invalidFileStop)
    ∧ (is_file_valid lastFile = true → key = true →
        uploadPipeline uploads key model
          = .indexed (files.map (fun f => (f, 300, 0)))
              (embeddingKind model) (vectorStoreKind model)) := by
  constructor
  · intro hv
    simp [uploadPipeline, hne, hp, hl, hv]
  · intro hv hk
    simp [uploadPipeline, hne, hp, hl, hv, hk]

/-- Witness for the amended C3: two files where only the first is empty —
    the last one is valid, so the index is built over both. -/
theorem validation_checks_only_last_file_witness :
    uploadPipeline
        [⟨"empty.txt", .ok ⟨"empty.txt", 0⟩⟩, ⟨"ok.txt", .ok ⟨"ok.txt", 7⟩⟩]
        true "gpt-4"
      = .indexed [(⟨"empty.txt", 0⟩, 300, 0), (⟨"ok.txt", 7⟩, 300, 0)]
          (embeddingKind "gpt-4") (vectorStoreKind "gpt-4") :=
  (validation_checks_only_last_file
    [⟨"empty.txt", .ok ⟨"empty.txt", 0⟩⟩, ⟨"ok.txt", .ok ⟨"ok.txt", 7⟩⟩]
    true "gpt-4" [⟨"empty.txt", 0⟩, ⟨"ok.txt", 7⟩] ⟨"ok.txt", 7⟩
    rfl rfl rfl).2 rfl rfl

/-- Claim C4: the displayed citation list collects the source pages,
    deduplicates via a set, sorts ascending and joins with `", "` — pages
    `[3, 1, 3, 2]` render as `"1, 2, 3"`; `sortedSet` is strictly ascending
    and has exactly the collected pages as members; and an empty source set
    appends no citation line (the committed answer is just the parsed
    answer body). -/
theorem citation_list_sorted_dedup_rendering :
    renderPages (sortedSet [3, 1, 3, 2]) = "1, 2, 3"
    ∧ (∀ xs : List Int,
        (sortedSet xs).Sorted (· < ·) ∧ ∀ x : Int, x ∈ sortedSet xs ↔ x ∈ xs)
    ∧ ∀ (msgs : List ChatMessage) (q ans : String),
        runChatTurn msgs q (.ok ⟨ans, []⟩)
          = msgs ++ [{ role := "user", content := q },
              { role := "assistant",
                content := extract_answer_without_sources ans }] := by
  refine ⟨by decide, fun xs => ⟨?_, fun x => ?_⟩, fun msgs q ans => ?_⟩
  · have hs : (sortedSet xs).Sorted (· ≤ ·) :=
      List.sorted_insertionSort (· ≤ ·) xs.dedup
    have hn : (sortedSet xs).Nodup :=
      (List.perm_insertionSort (· ≤ ·) xs.dedup).nodup_iff.mpr (List.nodup_dedup xs)
    exact hs.lt_of_le hn
  · rw [sortedSet, (List.perm_insertionSort (· ≤ ·) xs.dedup).mem_iff,
      List.mem_dedup]
  · have hr : renderPages (sortedSet []) = "" := by decide
    simp [runChatTurn, collectPages, hr]

/-- Claim C5: the answer parser returns everything before the first literal
    `SOURCES:` marker, the two marker forms being normalized identically,
    trimmed of whitespace: the example response yields `"The cat sat."`,
    and a marker-free response yields the full trimmed response. -/
theorem extract_answer_parsing :
    extract_answer_without_sources "The cat sat.\nSOURCES:\ndoc.pdf page 1"
      = "The cat sat."
    ∧ ∀ s : String, hasSubstr "SOURCES:".toList s.toList = false →
        extract_answer_without_sources s = pyStripS s := by
  refine ⟨by decide, fun s h => ?_⟩
  show String.mk (extractChars s.toList) = String.mk (pyStrip s.toList)
  rw [extractChars_of_not_hasSubstr h]

/-- Witness for C5 at a concrete marker-free input. -/
theorem extract_answer_parsing_witness :
    hasSubstr "SOURCES:".toList "  plain answer, no marker  ".toList = false
    ∧ extract_answer_without_sources "  plain answer, no marker  "
        = pyStripS "  plain answer, no marker  " :=
  ⟨by decide, extract_answer_parsing.2 "  plain answer, no marker  " (by decide)⟩

/-- Claim C6: a `ReadError` on any file is terminal for the upload
    operation — the error is surfaced with the offending file's name, the
    operation aborts, and no index is built from a partial document set
    (`display_file_read_error` modelled from the spec as aborting). -/
theorem read_error_aborts_before_index
    (uploads : List UploadRead) (key : Bool) (model : String)
    (h : ∃ u ∈ uploads, ∃ e, u.result = Except.error e) :
    (∃ v ∈ uploads, (∃ e, v.result = Except.error e)
        ∧ uploadPipeline uploads key model = .readError v.name)
    ∧ ∀ calls emb vs, uploadPipeline uploads key model ≠ .indexed calls emb vs := by
  obtain ⟨v, hv, hee, hp⟩ := processUploads_error_of_exists h
  have hne : uploads.isEmpty = false := by
    cases uploads with
    | nil => simp at hv
    | cons _ _ => rfl
  have hpl : uploadPipeline uploads key model = .readError v.name := by
    simp [uploadPipeline, hne, hp]
  refine ⟨⟨v, hv, hee, hpl⟩, fun calls emb vs hc => ?_⟩
  rw [hpl] at hc
  exact PipelineResult.noConfusion hc

/-- Witness for C6: one corrupt file aborts the pipeline; no index results. -/
theorem read_error_aborts_before_index_witness :
    uploadPipeline [⟨"bad.pdf", .error ⟨"corrupt"⟩⟩] true "gpt-4o"
      ≠ .indexed [] "openai" "faiss" :=
  (read_error_aborts_before_index [⟨"bad.pdf", .error ⟨"corrupt"⟩⟩] true "gpt-4o"
    ⟨⟨"bad.pdf", .error ⟨"corrupt"⟩⟩, List.mem_cons_self _ _, ⟨"corrupt"⟩, rfl⟩).2
    [] "openai" "faiss"

/-- Claim C7: whenever the pipeline reaches the index build, every Chunker
    invocation it made passes the explicit literals `chunk_size = 300` and
    `chunk_overlap = 0` (`app.py` line 72), which satisfy
    `0 ≤ chunk_overlap < chunk_size`. -/
theorem chunker_params_explicit_300_0
    (uploads : List UploadRead) (key : Bool) (model : String)
    (calls : List (PFile × Nat × Nat)) (emb vs : String)
    (h : uploadPipeline uploads key model = .indexed calls emb vs) :
    ∀ c ∈ calls, c.2.1 = 300 ∧ c.2.2 = 0 ∧ 0 ≤ c.2.2 ∧ c.2.2 < c.2.1 := by
  simp only [uploadPipeline] at h
  split at h
  · exact absurd h (by simp)
  · split at h
    · exact absurd h (by simp)
    · split at h
      · exact absurd h (by simp)
      · split at h
        · exact absurd h (by simp)
        · split at h
          · exact absurd h (by simp)
          · injection h with h1 h2 h3
            subst h1
            intro c hc
            obtain ⟨f, hf, rfl⟩ := List.mem_map.mp hc
            exact ⟨rfl, rfl, Nat.zero_le _, (by decide : (0 : Nat) < 300)⟩

/-- Witness for C7 at a concrete single-file upload. -/
theorem chunker_params_explicit_300_0_witness :
    ((⟨"a.txt", 5⟩ : PFile), 300, 0).2.1 = 300
    ∧ ((⟨"a.txt", 5⟩ : PFile), 300, 0).2.2 = 0
    ∧ 0 ≤ ((⟨"a.txt", 5⟩ : PFile), 300, 0).2.2
    ∧ ((⟨"a.txt", 5⟩ : PFile), 300, 0).2.2 < ((⟨"a.txt", 5⟩ : PFile), 300, 0).2.1 :=
  chunker_params_explicit_300_0 [⟨"a.txt", .ok ⟨"a.txt", 5⟩⟩] true "gpt-4o"
    [(⟨"a.txt", 5⟩, 300, 0)] "openai" "faiss" (by decide)
    (⟨"a.txt", 5⟩, 300, 0) (by decide)

/-- Claim C8: every model selectable in the UI (`MODEL_LIST`) yields
    embedding kind `"openai"` and vector-store kind `"faiss"` at the
    `embed_files` call; the `"debug"` branch is unreachable from the UI
    because `"debug"` is not among the selectbox options. -/
theorem ui_models_never_debug :
    "debug" ∉ MODEL_LIST
    ∧ ∀ model ∈ MODEL_LIST,
        embeddingKind model = "openai" ∧ vectorStoreKind model = "faiss" := by
  decide

/-- Witness for C8 at the default model. -/
theorem ui_models_never_debug_witness :
    embeddingKind "gpt-4o" = "openai" ∧ vectorStoreKind "gpt-4o" = "faiss" :=
  ui_models_never_debug.2 "gpt-4o" (by decide)

/-- Claim C9: when any source chunk's page metadata is missing or not
    integer-coercible, line 137 raises before line 148, so the assistant
    turn is never committed (the history ends with the user's question);
    and collecting the pages succeeds exactly when every chunk carries
    integer-coercible page metadata. -/
theorem missing_page_metadata_blocks_assistant_commit
    (msgs : List ChatMessage) (q : String) (result : QueryResult)
    (h : ∃ s ∈ result.sources, s.page = none) :
    runChatTurn msgs q (.ok result) = msgs ++ [{ role := "user", content := q }]
    ∧ ∀ srcs : List SourceChunk,
        (collectPages srcs).isSome = true ↔ ∀ s ∈ srcs, s.page.isSome = true := by
  have hn : collectPages result.sources = none := (collectPages_eq_none_iff _).mpr h
  exact ⟨by simp [runChatTurn, hn], fun srcs => collectPages_isSome_iff srcs⟩

/-- Witness for C9: one source chunk without a page entry. -/
theorem missing_page_metadata_blocks_assistant_commit_witness :
    runChatTurn [] "q" (.ok ⟨"ans", [⟨none⟩]⟩)
      = [] ++ [{ role := "user", content := "q" }]
    ∧ ∀ srcs : List SourceChunk,
        (collectPages srcs).isSome = true ↔ ∀ s ∈ srcs, s.page.isSome = true :=
  missing_page_metadata_blocks_assistant_commit [] "q" ⟨"ans", [⟨none⟩]⟩
    ⟨⟨none⟩, List.mem_cons_self _ _, rfl⟩

/-- Claim C10: the answer parser is idempotent — applying
    `extract_answer_without_sources` twice equals applying it once. -/
theorem extract_answer_idempotent (s : String) :
    extract_answer_without_sources (extract_answer_without_sources s)
      = extract_answer_without_sources s := by
  show String.mk (extractChars (extract_answer_without_sources s).toList)
    = extract_answer_without_sources s
  rw [extract_toList, extractChars_extractChars]
  rfl

end AskMyPDF
